import Mathlib

/-!
Verification model of the OCR_Belege receipt pipeline
(src/app/parser.py and src/app/ocr.py).

The Python parser is built on regular expressions; the model embeds the
exact regexes of the source as terms of a small backtracking regex
interpreter (`Re`) whose preference order (ordered alternation, greedy
repetition) matches the Python `re` module on the constructs those
patterns use.  Strings are modelled as `List Char`; Python `float` values
are modelled as exact rationals (`ℚ`), which is faithful on the decimal
strings the parser feeds to `float` (every claim compares against
2-or-more-decimal literals, where binary rounding plays no role).
Fallible Python operations are modelled with `Option`/`Except`.
-/

set_option maxRecDepth 16384

namespace OCRBelege

/-- Apostrophe character (U+0027), used as a thousands separator in amounts. -/
def apos : Char := Char.ofNat 39

/-- ASCII decimal digit test (code points 48 to 57), the model of the regex
class [0-9]. -/
def isDigitCh (c : Char) : Bool := 48 ≤ c.toNat && c.toNat ≤ 57

/-- Whitespace for Python str.strip() and the regex class \s : the ASCII
whitespace characters together with the Unicode space characters Python
treats as whitespace (NEL, NBSP, ogham, en/em spaces, line/paragraph
separator, narrow no-break, math space, ideographic space). -/
def isPySpace (c : Char) : Bool :=
  c.toNat == 32 || c.toNat == 9 || c.toNat == 10 || c.toNat == 11 ||
  c.toNat == 12 || c.toNat == 13 ||
  c.toNat == 28 || c.toNat == 29 || c.toNat == 30 || c.toNat == 31 ||
  c.toNat == 133 || c.toNat == 160 || c.toNat == 5760 ||
  (8192 ≤ c.toNat && c.toNat ≤ 8202) ||
  c.toNat == 8232 || c.toNat == 8233 || c.toNat == 8239 ||
  c.toNat == 8287 || c.toNat == 12288

/-- Code-point ranges (closed intervals) of the word characters of the
Python re module: the Unicode alphanumerics together with the underscore,
tabulated from CPython (Unicode 14.0).  A character is a word character
exactly when its code point lies in one of these ranges. -/
def wordRanges : List (Nat × Nat) := [
  (48, 57), (65, 90), (95, 95), (97, 122), (170, 170), (178, 179), (181, 181),
  (185, 186), (188, 190), (192, 214), (216, 246), (248, 705), (710, 721), (736, 740),
  (748, 748), (750, 750), (880, 884), (886, 887), (890, 893), (895, 895), (902, 902),
  (904, 906), (908, 908), (910, 929), (931, 1013), (1015, 1153), (1162, 1327), (1329, 1366),
  (1369, 1369), (1376, 1416), (1488, 1514), (1519, 1522), (1568, 1610), (1632, 1641), (1646, 1647),
  (1649, 1747), (1749, 1749), (1765, 1766), (1774, 1788), (1791, 1791), (1808, 1808), (1810, 1839),
  (1869, 1957), (1969, 1969), (1984, 2026), (2036, 2037), (2042, 2042), (2048, 2069), (2074, 2074),
  (2084, 2084), (2088, 2088), (2112, 2136), (2144, 2154), (2160, 2183), (2185, 2190), (2208, 2249),
  (2308, 2361), (2365, 2365), (2384, 2384), (2392, 2401), (2406, 2415), (2417, 2432), (2437, 2444),
  (2447, 2448), (2451, 2472), (2474, 2480), (2482, 2482), (2486, 2489), (2493, 2493), (2510, 2510),
  (2524, 2525), (2527, 2529), (2534, 2545), (2548, 2553), (2556, 2556), (2565, 2570), (2575, 2576),
  (2579, 2600), (2602, 2608), (2610, 2611), (2613, 2614), (2616, 2617), (2649, 2652), (2654, 2654),
  (2662, 2671), (2674, 2676), (2693, 2701), (2703, 2705), (2707, 2728), (2730, 2736), (2738, 2739),
  (2741, 2745), (2749, 2749), (2768, 2768), (2784, 2785), (2790, 2799), (2809, 2809), (2821, 2828),
  (2831, 2832), (2835, 2856), (2858, 2864), (2866, 2867), (2869, 2873), (2877, 2877), (2908, 2909),
  (2911, 2913), (2918, 2927), (2929, 2935), (2947, 2947), (2949, 2954), (2958, 2960), (2962, 2965),
  (2969, 2970), (2972, 2972), (2974, 2975), (2979, 2980), (2984, 2986), (2990, 3001), (3024, 3024),
  (3046, 3058), (3077, 3084), (3086, 3088), (3090, 3112), (3114, 3129), (3133, 3133), (3160, 3162),
  (3165, 3165), (3168, 3169), (3174, 3183), (3192, 3198), (3200, 3200), (3205, 3212), (3214, 3216),
  (3218, 3240), (3242, 3251), (3253, 3257), (3261, 3261), (3293, 3294), (3296, 3297), (3302, 3311),
  (3313, 3314), (3332, 3340), (3342, 3344), (3346, 3386), (3389, 3389), (3406, 3406), (3412, 3414),
  (3416, 3425), (3430, 3448), (3450, 3455), (3461, 3478), (3482, 3505), (3507, 3515), (3517, 3517),
  (3520, 3526), (3558, 3567), (3585, 3632), (3634, 3635), (3648, 3654), (3664, 3673), (3713, 3714),
  (3716, 3716), (3718, 3722), (3724, 3747), (3749, 3749), (3751, 3760), (3762, 3763), (3773, 3773),
  (3776, 3780), (3782, 3782), (3792, 3801), (3804, 3807), (3840, 3840), (3872, 3891), (3904, 3911),
  (3913, 3948), (3976, 3980), (4096, 4138), (4159, 4169), (4176, 4181), (4186, 4189), (4193, 4193),
  (4197, 4198), (4206, 4208), (4213, 4225), (4238, 4238), (4240, 4249), (4256, 4293), (4295, 4295),
  (4301, 4301), (4304, 4346), (4348, 4680), (4682, 4685), (4688, 4694), (4696, 4696), (4698, 4701),
  (4704, 4744), (4746, 4749), (4752, 4784), (4786, 4789), (4792, 4798), (4800, 4800), (4802, 4805),
  (4808, 4822), (4824, 4880), (4882, 4885), (4888, 4954), (4969, 4988), (4992, 5007), (5024, 5109),
  (5112, 5117), (5121, 5740), (5743, 5759), (5761, 5786), (5792, 5866), (5870, 5880), (5888, 5905),
  (5919, 5937), (5952, 5969), (5984, 5996), (5998, 6000), (6016, 6067), (6103, 6103), (6108, 6108),
  (6112, 6121), (6128, 6137), (6160, 6169), (6176, 6264), (6272, 6276), (6279, 6312), (6314, 6314),
  (6320, 6389), (6400, 6430), (6470, 6509), (6512, 6516), (6528, 6571), (6576, 6601), (6608, 6618),
  (6656, 6678), (6688, 6740), (6784, 6793), (6800, 6809), (6823, 6823), (6917, 6963), (6981, 6988),
  (6992, 7001), (7043, 7072), (7086, 7141), (7168, 7203), (7232, 7241), (7245, 7293), (7296, 7304),
  (7312, 7354), (7357, 7359), (7401, 7404), (7406, 7411), (7413, 7414), (7418, 7418), (7424, 7615),
  (7680, 7957), (7960, 7965), (7968, 8005), (8008, 8013), (8016, 8023), (8025, 8025), (8027, 8027),
  (8029, 8029), (8031, 8061), (8064, 8116), (8118, 8124), (8126, 8126), (8130, 8132), (8134, 8140),
  (8144, 8147), (8150, 8155), (8160, 8172), (8178, 8180), (8182, 8188), (8304, 8305), (8308, 8313),
  (8319, 8329), (8336, 8348), (8450, 8450), (8455, 8455), (8458, 8467), (8469, 8469), (8473, 8477),
  (8484, 8484), (8486, 8486), (8488, 8488), (8490, 8493), (8495, 8505), (8508, 8511), (8517, 8521),
  (8526, 8526), (8528, 8585), (9312, 9371), (9450, 9471), (10102, 10131), (11264, 11492), (11499, 11502),
  (11506, 11507), (11517, 11517), (11520, 11557), (11559, 11559), (11565, 11565), (11568, 11623), (11631, 11631),
  (11648, 11670), (11680, 11686), (11688, 11694), (11696, 11702), (11704, 11710), (11712, 11718), (11720, 11726),
  (11728, 11734), (11736, 11742), (11823, 11823), (12293, 12295), (12321, 12329), (12337, 12341), (12344, 12348),
  (12353, 12438), (12445, 12447), (12449, 12538), (12540, 12543), (12549, 12591), (12593, 12686), (12690, 12693),
  (12704, 12735), (12784, 12799), (12832, 12841), (12872, 12879), (12881, 12895), (12928, 12937), (12977, 12991),
  (13312, 19903), (19968, 42124), (42192, 42237), (42240, 42508), (42512, 42539), (42560, 42606), (42623, 42653),
  (42656, 42735), (42775, 42783), (42786, 42888), (42891, 42954), (42960, 42961), (42963, 42963), (42965, 42969),
  (42994, 43009), (43011, 43013), (43015, 43018), (43020, 43042), (43056, 43061), (43072, 43123), (43138, 43187),
  (43216, 43225), (43250, 43255), (43259, 43259), (43261, 43262), (43264, 43301), (43312, 43334), (43360, 43388),
  (43396, 43442), (43471, 43481), (43488, 43492), (43494, 43518), (43520, 43560), (43584, 43586), (43588, 43595),
  (43600, 43609), (43616, 43638), (43642, 43642), (43646, 43695), (43697, 43697), (43701, 43702), (43705, 43709),
  (43712, 43712), (43714, 43714), (43739, 43741), (43744, 43754), (43762, 43764), (43777, 43782), (43785, 43790),
  (43793, 43798), (43808, 43814), (43816, 43822), (43824, 43866), (43868, 43881), (43888, 44002), (44016, 44025),
  (44032, 55203), (55216, 55238), (55243, 55291), (63744, 64109), (64112, 64217), (64256, 64262), (64275, 64279),
  (64285, 64285), (64287, 64296), (64298, 64310), (64312, 64316), (64318, 64318), (64320, 64321), (64323, 64324),
  (64326, 64433), (64467, 64829), (64848, 64911), (64914, 64967), (65008, 65019), (65136, 65140), (65142, 65276),
  (65296, 65305), (65313, 65338), (65345, 65370), (65382, 65470), (65474, 65479), (65482, 65487), (65490, 65495),
  (65498, 65500), (65536, 65547), (65549, 65574), (65576, 65594), (65596, 65597), (65599, 65613), (65616, 65629),
  (65664, 65786), (65799, 65843), (65856, 65912), (65930, 65931), (66176, 66204), (66208, 66256), (66273, 66299),
  (66304, 66339), (66349, 66378), (66384, 66421), (66432, 66461), (66464, 66499), (66504, 66511), (66513, 66517),
  (66560, 66717), (66720, 66729), (66736, 66771), (66776, 66811), (66816, 66855), (66864, 66915), (66928, 66938),
  (66940, 66954), (66956, 66962), (66964, 66965), (66967, 66977), (66979, 66993), (66995, 67001), (67003, 67004),
  (67072, 67382), (67392, 67413), (67424, 67431), (67456, 67461), (67463, 67504), (67506, 67514), (67584, 67589),
  (67592, 67592), (67594, 67637), (67639, 67640), (67644, 67644), (67647, 67669), (67672, 67702), (67705, 67742),
  (67751, 67759), (67808, 67826), (67828, 67829), (67835, 67867), (67872, 67897), (67968, 68023), (68028, 68047),
  (68050, 68096), (68112, 68115), (68117, 68119), (68121, 68149), (68160, 68168), (68192, 68222), (68224, 68255),
  (68288, 68295), (68297, 68324), (68331, 68335), (68352, 68405), (68416, 68437), (68440, 68466), (68472, 68497),
  (68521, 68527), (68608, 68680), (68736, 68786), (68800, 68850), (68858, 68899), (68912, 68921), (69216, 69246),
  (69248, 69289), (69296, 69297), (69376, 69415), (69424, 69445), (69457, 69460), (69488, 69505), (69552, 69579),
  (69600, 69622), (69635, 69687), (69714, 69743), (69745, 69746), (69749, 69749), (69763, 69807), (69840, 69864),
  (69872, 69881), (69891, 69926), (69942, 69951), (69956, 69956), (69959, 69959), (69968, 70002), (70006, 70006),
  (70019, 70066), (70081, 70084), (70096, 70106), (70108, 70108), (70113, 70132), (70144, 70161), (70163, 70187),
  (70272, 70278), (70280, 70280), (70282, 70285), (70287, 70301), (70303, 70312), (70320, 70366), (70384, 70393),
  (70405, 70412), (70415, 70416), (70419, 70440), (70442, 70448), (70450, 70451), (70453, 70457), (70461, 70461),
  (70480, 70480), (70493, 70497), (70656, 70708), (70727, 70730), (70736, 70745), (70751, 70753), (70784, 70831),
  (70852, 70853), (70855, 70855), (70864, 70873), (71040, 71086), (71128, 71131), (71168, 71215), (71236, 71236),
  (71248, 71257), (71296, 71338), (71352, 71352), (71360, 71369), (71424, 71450), (71472, 71483), (71488, 71494),
  (71680, 71723), (71840, 71922), (71935, 71942), (71945, 71945), (71948, 71955), (71957, 71958), (71960, 71983),
  (71999, 71999), (72001, 72001), (72016, 72025), (72096, 72103), (72106, 72144), (72161, 72161), (72163, 72163),
  (72192, 72192), (72203, 72242), (72250, 72250), (72272, 72272), (72284, 72329), (72349, 72349), (72368, 72440),
  (72704, 72712), (72714, 72750), (72768, 72768), (72784, 72812), (72818, 72847), (72960, 72966), (72968, 72969),
  (72971, 73008), (73030, 73030), (73040, 73049), (73056, 73061), (73063, 73064), (73066, 73097), (73112, 73112),
  (73120, 73129), (73440, 73458), (73648, 73648), (73664, 73684), (73728, 74649), (74752, 74862), (74880, 75075),
  (77712, 77808), (77824, 78894), (82944, 83526), (92160, 92728), (92736, 92766), (92768, 92777), (92784, 92862),
  (92864, 92873), (92880, 92909), (92928, 92975), (92992, 92995), (93008, 93017), (93019, 93025), (93027, 93047),
  (93053, 93071), (93760, 93846), (93952, 94026), (94032, 94032), (94099, 94111), (94176, 94177), (94179, 94179),
  (94208, 100343), (100352, 101589), (101632, 101640), (110576, 110579), (110581, 110587), (110589, 110590), (110592, 110882),
  (110928, 110930), (110948, 110951), (110960, 111355), (113664, 113770), (113776, 113788), (113792, 113800), (113808, 113817),
  (119520, 119539), (119648, 119672), (119808, 119892), (119894, 119964), (119966, 119967), (119970, 119970), (119973, 119974),
  (119977, 119980), (119982, 119993), (119995, 119995), (119997, 120003), (120005, 120069), (120071, 120074), (120077, 120084),
  (120086, 120092), (120094, 120121), (120123, 120126), (120128, 120132), (120134, 120134), (120138, 120144), (120146, 120485),
  (120488, 120512), (120514, 120538), (120540, 120570), (120572, 120596), (120598, 120628), (120630, 120654), (120656, 120686),
  (120688, 120712), (120714, 120744), (120746, 120770), (120772, 120779), (120782, 120831), (122624, 122654), (123136, 123180),
  (123191, 123197), (123200, 123209), (123214, 123214), (123536, 123565), (123584, 123627), (123632, 123641), (124896, 124902),
  (124904, 124907), (124909, 124910), (124912, 124926), (124928, 125124), (125127, 125135), (125184, 125251), (125259, 125259),
  (125264, 125273), (126065, 126123), (126125, 126127), (126129, 126132), (126209, 126253), (126255, 126269), (126464, 126467),
  (126469, 126495), (126497, 126498), (126500, 126500), (126503, 126503), (126505, 126514), (126516, 126519), (126521, 126521),
  (126523, 126523), (126530, 126530), (126535, 126535), (126537, 126537), (126539, 126539), (126541, 126543), (126545, 126546),
  (126548, 126548), (126551, 126551), (126553, 126553), (126555, 126555), (126557, 126557), (126559, 126559), (126561, 126562),
  (126564, 126564), (126567, 126570), (126572, 126578), (126580, 126583), (126585, 126588), (126590, 126590), (126592, 126601),
  (126603, 126619), (126625, 126627), (126629, 126633), (126635, 126651), (127232, 127244), (130032, 130041), (131072, 173791),
  (173824, 177976), (177984, 178205), (178208, 183969), (183984, 191456), (194560, 195101), (196608, 201546)]

/-- Word character for the regex \b assertion, per the Unicode word class
of the Python re module. -/
def isWordChar (c : Char) : Bool :=
  wordRanges.any (fun r => r.1 ≤ c.toNat && c.toNat ≤ r.2)

/-- Python str.strip() with no argument: drop leading and trailing whitespace. -/
def pyStrip (l : List Char) : List Char :=
  ((l.dropWhile isPySpace).reverse.dropWhile isPySpace).reverse

/-- Numeric value of a list of ASCII digits, most significant first. -/
def digitsToNat (l : List Char) : Nat :=
  l.foldl (fun a c => a * 10 + (c.toNat - 48)) 0

/-- Model of Python float() on the strings the parser can feed it: plain
unsigned decimal digit strings with at most one dot.  Such a string parses
to its exact rational value; everything else is rejected (ValueError).
Every string reaching float() in parser.py is of this restricted shape
(digits and separators only, commas already rewritten to dots), so on the
reachable domain this is Python float() up to exact-versus-binary value. -/
def pyFloat (l : List Char) : Option ℚ :=
  if l.all (fun c => isDigitCh c || c == '.') &&
     decide ((l.filter (fun c => c == '.')).length ≤ 1) &&
     decide (1 ≤ (l.filter isDigitCh).length) then
    let intPart := l.takeWhile (fun c => c != '.')
    let fracPart := (l.dropWhile (fun c => c != '.')).drop 1
    some (mkRat (digitsToNat (intPart ++ fracPart)) (10 ^ fracPart.length))
  else Option.none

/-- Rewrite every comma to a dot, the model of s.replace(",", "."). -/
def commaToDot (l : List Char) : List Char :=
  l.map (fun c => if c == ',' then '.' else c)

/-- Steps one and two of _normalize_amount_to_float: strip, then remove the
spaces and apostrophes used as thousands separators. -/
def stripSpacesApos (l : List Char) : List Char :=
  (pyStrip l).filter (fun c => !(c == ' ') && !(c == apos))

/-- Separator resolution of _normalize_amount_to_float: both dot and comma
present means dots are thousands separators (removed) and the comma becomes
the dot; only a comma becomes the dot; only a dot is kept. -/
def normalizeSeparators (l : List Char) : List Char :=
  if (stripSpacesApos l).contains '.' && (stripSpacesApos l).contains ',' then
    commaToDot ((stripSpacesApos l).filter (fun c => !(c == '.')))
  else if (stripSpacesApos l).contains ',' then
    commaToDot (stripSpacesApos l)
  else stripSpacesApos l

/-- Model of parser.py _normalize_amount_to_float: resolve separators and
parse as a float, with a failing parse giving None instead of an error. -/
def normalize_amount_to_float (l : List Char) : Option ℚ :=
  if l.isEmpty then Option.none
  else pyFloat (normalizeSeparators l)

/-- Exceptions the modelled Python code can raise. -/
inductive PyExn where
  | valueError
  | other
deriving DecidableEq, Repr

/-- Python float() as a fallible operation: a string that does not parse
raises ValueError. -/
def pyFloatE (l : List Char) : Except PyExn ℚ :=
  match pyFloat l with
  | some v => Except.ok v
  | Option.none => Except.error PyExn.valueError

/-- The normalization helper with its exception flow made explicit: the
float() call may raise ValueError and the try/except inside the helper
catches it and returns None, so the helper itself never raises. -/
def normalize_amount_to_floatE (l : List Char) : Except PyExn (Option ℚ) :=
  if l.isEmpty then Except.ok Option.none
  else
    match pyFloatE (normalizeSeparators l) with
    | Except.ok v => Except.ok (some v)
    | Except.error _ => Except.ok Option.none

/-!
A small backtracking regex interpreter.  The constructs below are exactly
those appearing in the patterns of parser.py: character classes, ordered
alternation, concatenation, greedy star (always over a nonempty-match body
in the source patterns), one capturing group, the MULTILINE anchors, and
the word-boundary assertion.  `Re.run` returns every way a pattern can
match at a position, in the preference order of a backtracking engine
(earlier alternatives first, longer repetitions first), so its head is the
match Python's re module reports.
-/

/-- Regex abstract syntax. -/
inductive Re where
  | eps
  | cls (p : Char → Bool)
  | seq (a b : Re)
  | alt (a b : Re)
  | star (a : Re)
  | group (a : Re)
  | bol
  | eol
  | wordB

/-- Character before a position, if any. -/
def prevChar (text : List Char) (pos : Nat) : Option Char :=
  if pos == 0 then Option.none else text.get? (pos - 1)

/-- One match outcome: end position and the span of capture group 1. -/
abbrev MatchRes := Nat × Option (Nat × Nat)

/-- Greedy iteration of a repetition body, fuelled (each kept iteration
consumes at least one character, so fuel (text length + 1) is enough).
Iterating further is preferred over stopping, matching greedy semantics;
an iteration that consumes nothing stops the loop, as in Python. -/
def starRun (body : Nat → List MatchRes) : Nat → Nat → List MatchRes
  | 0, pos => [(pos, Option.none)]
  | fuel+1, pos =>
    (((body pos).filter (fun r => pos < r.1)).flatMap
      (fun r => (starRun body fuel r.1).map (fun r2 => (r2.1, r.2 <|> r2.2)))) ++
    [(pos, Option.none)]

/-- All matches of a pattern at a fixed start position, in backtracking
preference order. -/
def Re.run (text : List Char) : Re → Nat → List MatchRes
  | .eps, pos => [(pos, Option.none)]
  | .cls p, pos =>
    match text.get? pos with
    | some c => if p c then [(pos + 1, Option.none)] else []
    | Option.none => []
  | .seq a b, pos =>
    (Re.run text a pos).flatMap (fun r =>
      (Re.run text b r.1).map (fun r2 => (r2.1, r.2 <|> r2.2)))
  | .alt a b, pos => Re.run text a pos ++ Re.run text b pos
  | .star a, pos => starRun (Re.run text a) (text.length + 1) pos
  | .group a, pos => (Re.run text a pos).map (fun r => (r.1, some (pos, r.1)))
  | .bol, pos =>
    if pos == 0 || prevChar text pos == some (Char.ofNat 10) then [(pos, Option.none)] else []
  | .eol, pos =>
    if pos == text.length || text.get? pos == some (Char.ofNat 10) then [(pos, Option.none)] else []
  | .wordB, pos =>
    let w : Option Char → Bool := fun o =>
      match o with
      | some c => isWordChar c
      | Option.none => false
    if w (prevChar text pos) != w (text.get? pos) then [(pos, Option.none)] else []

/-- Single literal character. -/
def Re.chr (c : Char) : Re := Re.cls (fun x => x == c)

/-- Case-insensitive literal character (IGNORECASE). -/
def Re.chrCI (c : Char) : Re := Re.cls (fun x => x.toLower == c.toLower)

/-- Case-insensitive literal word. -/
def Re.strCI (s : List Char) : Re := s.foldr (fun c r => Re.seq (Re.chrCI c) r) Re.eps

/-- Greedy question-mark quantifier. -/
def Re.quest (a : Re) : Re := Re.alt a Re.eps

/-- Greedy plus quantifier. -/
def Re.plus (a : Re) : Re := Re.seq a (Re.star a)

/-- Exactly n copies. -/
def Re.repExact (a : Re) : Nat → Re
  | 0 => Re.eps
  | n+1 => Re.seq a (Re.repExact a n)

/-- Greedily, up to n copies. -/
def Re.repUpTo (a : Re) : Nat → Re
  | 0 => Re.eps
  | n+1 => Re.alt (Re.seq a (Re.repUpTo a n)) Re.eps

/-- Greedy bounded repetition a with m and n the repetition bounds. -/
def Re.repRange (a : Re) (m n : Nat) : Re := Re.seq (Re.repExact a m) (Re.repUpTo a (n - m))

/-- Scanner behind finditer: try each start position left to right, keep the
preferred match at each matching position, continue after the match end
(non-overlapping), fuelled by the number of remaining positions.  Each
element records the match start and the group-1 span. -/
def finditerAux (text : List Char) (pat : Re) : Nat → Nat → List (Nat × Option (Nat × Nat))
  | 0, _ => []
  | fuel+1, pos =>
    if decide (text.length < pos) then []
    else
      match (Re.run text pat pos).head? with
      | some r =>
        (pos, r.2) :: finditerAux text pat fuel (if decide (pos < r.1) then r.1 else pos + 1)
      | Option.none => finditerAux text pat fuel (pos + 1)

/-- Model of pat.finditer(text): matches with start offsets and capture spans. -/
def finditer (text : List Char) (pat : Re) : List (Nat × Option (Nat × Nat)) :=
  finditerAux text pat (text.length + 2) 0

/-- Scanner behind re.search used as a test. -/
def searchAux (text : List Char) (pat : Re) : Nat → Nat → Bool
  | 0, _ => false
  | fuel+1, pos =>
    if decide (text.length < pos) then false
    else if (Re.run text pat pos).isEmpty then searchAux text pat fuel (pos + 1)
    else true

/-- Model of bool(pat.search(text)). -/
def reSearch (text : List Char) (pat : Re) : Bool :=
  searchAux text pat (text.length + 2) 0

/-- Substring of the text between two positions. -/
def slice (text : List Char) (s e : Nat) : List Char :=
  (text.drop s).take (e - s)

/-!
The concrete patterns of parser.py, embedded term by term.
-/

/-- Regex class [0-9]. -/
def digitRe : Re := Re.cls isDigitCh

/-- Model of the regex \s. -/
def wspRe : Re := Re.cls isPySpace

/-- Model of the regex \s* . -/
def wsStar : Re := Re.star wspRe

/-- Thousands-separator class [apostrophe \s . ,] inside AMOUNT_GROUP. -/
def sepCls : Re := Re.cls (fun c => c == apos || isPySpace c || c == '.' || c == ',')

/-- Decimal tail [.,][0-9] with two digits. -/
def decTail : Re := Re.seq (Re.cls (fun c => c == '.' || c == ',')) (Re.repExact digitRe 2)

/-- First AMOUNT_GROUP alternative: grouped thousands then a 2-digit tail. -/
def amountAlt1 : Re :=
  Re.seq (Re.repRange digitRe 1 3)
    (Re.seq (Re.star (Re.seq sepCls (Re.repExact digitRe 3))) decTail)

/-- Second AMOUNT_GROUP alternative: plain digits then a 2-digit tail. -/
def amountAlt2 : Re := Re.seq (Re.plus digitRe) decTail

/-- AMOUNT_GROUP of parser.py, the single capturing group. -/
def amountGroup : Re := Re.group (Re.alt amountAlt1 amountAlt2)

/-- CURRENCY of parser.py: CHF, Fr with optional dot, SFr with optional dot,
EUR, or the euro sign, in source order. -/
def currencyRe : Re :=
  Re.alt (Re.strCI "CHF".toList)
    (Re.alt (Re.seq (Re.strCI "Fr".toList) (Re.quest (Re.chr '.')))
      (Re.alt (Re.seq (Re.strCI "SFr".toList) (Re.quest (Re.chr '.')))
        (Re.alt (Re.strCI "EUR".toList) (Re.chr (Char.ofNat 8364)))))

/-- LABEL of parser.py, alternatives in source order. -/
def labelRe : Re :=
  Re.alt (Re.strCI "TOTAL".toList)
    (Re.alt (Re.strCI "SUMME".toList)
      (Re.alt (Re.seq (Re.strCI "GESAMT".toList) (Re.quest (Re.strCI "BETRAG".toList)))
        (Re.alt (Re.strCI "TOTALBETRAG".toList)
          (Re.alt (Re.seq (Re.strCI "ZU".toList)
                    (Re.seq wsStar (Re.alt (Re.strCI "ZAHLEN".toList) (Re.strCI "BEZAHLEN".toList))))
            (Re.strCI "ZAHLBETRAG".toList)))))

/-- Optional colon or equals after the label. -/
def colonEq : Re := Re.cls (fun c => c == ':' || c == '=')

/-- First total pattern: label then amount, maybe currency in between. -/
def totalPat1 : Re :=
  Re.seq labelRe (Re.seq wsStar (Re.seq (Re.quest colonEq)
    (Re.seq wsStar (Re.seq (Re.quest (Re.seq currencyRe wsStar)) amountGroup))))

/-- Second total pattern: label then amount then currency. -/
def totalPat2 : Re :=
  Re.seq labelRe (Re.seq wsStar (Re.seq (Re.quest colonEq)
    (Re.seq wsStar (Re.seq amountGroup (Re.seq wsStar currencyRe)))))

/-- Third total pattern: standalone line with currency then amount. -/
def totalPat3 : Re :=
  Re.seq Re.bol (Re.seq currencyRe (Re.seq wsStar (Re.seq amountGroup (Re.seq wsStar Re.eol))))

/-- Fourth total pattern: standalone line with amount then currency. -/
def totalPat4 : Re :=
  Re.seq Re.bol (Re.seq amountGroup (Re.seq wsStar (Re.seq currencyRe (Re.seq wsStar Re.eol))))

/-- TOTAL_PATTERNS of parser.py, in source order. -/
def TOTAL_PATTERNS : List Re := [totalPat1, totalPat2, totalPat3, totalPat4]

/-- Candidate extraction from one finditer match: the normalized value of
the captured amount string, with the match start offset. -/
def candOf (text : List Char) (r : Nat × Option (Nat × Nat)) : Option (Nat × ℚ) :=
  match r.2 with
  | some sp => (normalize_amount_to_float (slice text sp.1 sp.2)).map (fun v => (r.1, v))
  | Option.none => Option.none

/-- Tier-1 candidate totals: for each pattern, every finditer match whose
captured amount string normalizes, paired with the match start offset. -/
def tier1Candidates (text : List Char) : List (Nat × ℚ) :=
  TOTAL_PATTERNS.flatMap (fun pat => (finditer text pat).filterMap (candOf text))

/-!
Tier 2: the line-scan fallback of parser.py.
-/

/-- Line-break characters of Python str.splitlines. -/
def isLineBreak (c : Char) : Bool :=
  c == Char.ofNat 10 || c == Char.ofNat 13 || c == Char.ofNat 11 || c == Char.ofNat 12 ||
  c == Char.ofNat 28 || c == Char.ofNat 29 || c == Char.ofNat 30 ||
  c == Char.ofNat 133 || c == Char.ofNat 8232 || c == Char.ofNat 8233

/-- Worker of the splitlines model; acc is the current line, reversed. -/
def splitPyLinesAux : List Char → List Char → List (List Char)
  | [], acc => if acc.isEmpty then [] else [acc.reverse]
  | c :: rest, acc =>
    if c == Char.ofNat 13 then
      match rest with
      | d :: rest2 =>
        if d == Char.ofNat 10 then acc.reverse :: splitPyLinesAux rest2 []
        else acc.reverse :: splitPyLinesAux (d :: rest2) []
      | [] => acc.reverse :: splitPyLinesAux [] []
    else if isLineBreak c then acc.reverse :: splitPyLinesAux rest []
    else splitPyLinesAux rest (c :: acc)

/-- Model of Python str.splitlines(): split at line-break characters, with
CRLF counting as a single break, and no terminator-induced empty last line. -/
def splitPyLines (l : List Char) : List (List Char) := splitPyLinesAux l []

/-- The 2-decimal number regex of _rightmost_amount_in_line, with its
capture group. -/
def amount2Pat : Re := Re.group (Re.seq (Re.repRange digitRe 1 6) decTail)

/-- Replacement of the non-breaking space variants (U+00A0, U+2007, U+202F)
by plain spaces, as done at the top of _rightmost_amount_in_line. -/
def nbspToSpace (l : List Char) : List Char :=
  l.map (fun c =>
    if c == Char.ofNat 160 || c == Char.ofNat 8199 || c == Char.ofNat 8239 then ' ' else c)

/-- Model of re.findall for the 2-decimal number regex: the captured
strings of the non-overlapping matches, left to right. -/
def findallAmount2 (line : List Char) : List (List Char) :=
  (finditer line amount2Pat).filterMap (fun r => r.2.map (fun sp => slice line sp.1 sp.2))

/-- Model of parser.py _rightmost_amount_in_line: normalize odd spaces, take
the last 2-decimal number on the line, turn its comma into a dot and parse
it, a failing parse giving None. -/
def rightmost_amount_in_line (line : List Char) : Option ℚ :=
  match (findallAmount2 (nbspToSpace line)).getLast? with
  | some raw => pyFloat (commaToDot raw)
  | Option.none => Option.none

/-- The same helper with the float() exception flow explicit; its
try/except catches exactly ValueError. -/
def rightmost_amount_in_lineE (line : List Char) : Except PyExn (Option ℚ) :=
  match (findallAmount2 (nbspToSpace line)).getLast? with
  | some raw =>
    match pyFloatE (commaToDot raw) with
    | Except.ok v => Except.ok (some v)
    | Except.error PyExn.valueError => Except.ok Option.none
    | Except.error e => Except.error e
  | Option.none => Except.ok Option.none

/-- The word-boundary keyword regex of _parse_total_by_lines. -/
def keywordPat : Re :=
  Re.seq Re.wordB (Re.seq (Re.group (Re.alt (Re.strCI "TOTAL".toList)
    (Re.alt (Re.strCI "SUMME".toList) (Re.strCI "GESAMT".toList)))) Re.wordB)

/-- Line loop of parser.py _parse_total_by_lines: first keyword line whose
right-most amount parses wins; keyword lines without an amount are skipped. -/
def parse_total_by_linesGo : List (List Char) → Option ℚ
  | [] => Option.none
  | line :: rest =>
    if reSearch line keywordPat then
      match rightmost_amount_in_line line with
      | some v => some v
      | Option.none => parse_total_by_linesGo rest
    else parse_total_by_linesGo rest

/-- Model of parser.py _parse_total_by_lines. -/
def parse_total_by_lines (text : List Char) : Option ℚ :=
  parse_total_by_linesGo (splitPyLines text)

/-!
Merchant table and the top-level parse.
-/

/-- STORE_PATTERNS of parser.py: keyword regex (a case-insensitive literal)
with its display name and chain identifier, in source order. -/
def STORE_PATTERNS : List (String × String × String) :=
  [("migros", "Migros", "Migros"), ("coop", "Coop", "Coop"),
   ("aldi", "Aldi", "Aldi"), ("lidl", "Lidl", "Lidl")]

/-- Model of bool(re.search(kw, text, re.I)) for a literal keyword: the
lowered keyword occurs in the lowered text. -/
def searchCI (text kw : List Char) : Bool :=
  decide ((kw.map Char.toLower) <:+: (text.map Char.toLower))

/-- Merchant loop of parse_store_and_total: first table entry whose keyword
occurs wins. -/
def findStore : List (String × String × String) → List Char → Option (String × String)
  | [], _ => Option.none
  | e :: rest, text =>
    if searchCI text e.1.toList then some (e.2.1, e.2.2) else findStore rest text

/-- Insert into a list sorted by start offset, after existing entries with
the same offset. -/
def insByStart (c : Nat × ℚ) : List (Nat × ℚ) → List (Nat × ℚ)
  | [] => [c]
  | d :: l => if decide (c.1 < d.1) then c :: d :: l else d :: insByStart c l

/-- Stable sort of the candidate list by start offset.  A stable sort is
unique as a function, so this equals the Python list.sort call of
parse_store_and_total. -/
def sortByStart (l : List (Nat × ℚ)) : List (Nat × ℚ) :=
  l.foldl (fun acc c => insByStart c acc) []

/-- Model of parser.py parse_store_and_total: merchant by first matching
table entry; total from the last (highest start offset, sorted stably)
Tier-1 candidate, with the line-scan fallback when no candidate exists. -/
def parse_store_and_total (text : String) :
    Option String × Option String × Option ℚ :=
  let chars := text.toList
  let store := findStore STORE_PATTERNS chars
  let candidates := tier1Candidates chars
  let total :=
    if candidates.isEmpty then parse_total_by_lines chars
    else (sortByStart candidates).getLast?.map (fun c => c.2)
  (store.map (fun e => e.1), store.map (fun e => e.2), total)

/-- Candidate accumulation step with the exception flow explicit: the
normalization helper is the only fallible call. -/
def candAccumE (text : List Char) (acc : List (Nat × ℚ)) (r : Nat × Option (Nat × Nat)) :
    Except PyExn (List (Nat × ℚ)) :=
  match r.2 with
  | some sp =>
    match normalize_amount_to_floatE (slice text sp.1 sp.2) with
    | Except.ok (some v) => Except.ok (acc ++ [(r.1, v)])
    | Except.ok Option.none => Except.ok acc
    | Except.error e => Except.error e
  | Option.none => Except.ok acc

/-- Tier-1 collection with the exception flow explicit. -/
def tier1CandidatesE (text : List Char) : Except PyExn (List (Nat × ℚ)) :=
  (TOTAL_PATTERNS.flatMap (finditer text)).foldlM (candAccumE text) []

/-- Line loop with the exception flow explicit. -/
def parse_total_by_linesGoE : List (List Char) → Except PyExn (Option ℚ)
  | [] => Except.ok Option.none
  | line :: rest =>
    if reSearch line keywordPat then
      match rightmost_amount_in_lineE line with
      | Except.ok (some v) => Except.ok (some v)
      | Except.ok Option.none => parse_total_by_linesGoE rest
      | Except.error e => Except.error e
    else parse_total_by_linesGoE rest

/-- parse_store_and_total with the exception flow explicit.  The function
body has no try/except of its own, so an exception escaping any internal
operation would propagate to the caller. -/
def parse_store_and_totalE (text : String) :
    Except PyExn (Option String × Option String × Option ℚ) :=
  let chars := text.toList
  let store := findStore STORE_PATTERNS chars
  match tier1CandidatesE chars with
  | Except.error e => Except.error e
  | Except.ok candidates =>
    match (if candidates.isEmpty then parse_total_by_linesGoE (splitPyLines chars)
           else Except.ok ((sortByStart candidates).getLast?.map (fun c => c.2))) with
    | Except.error e => Except.error e
    | Except.ok total =>
      Except.ok (store.map (fun e => e.1), store.map (fun e => e.2), total)

/-!
The text extraction engine of src/app/ocr.py.  The OCR engine, the PDF
text extractor and the rasterizer are black-box services; the model takes
them as an environment of fallible oracles and embeds the control flow of
ocr_image and ocr_file over them.  The image-preprocessing helpers
(_auto_rotate, _preprocess_for_ocr) swallow their own exceptions and only
change which image is handed to the engine, which the environment already
abstracts, so they need no separate model.
-/

/-- Image-processing variants prepared by ocr_image before engine calls. -/
inductive ImgVariant where
  | original
  | preprocessed
  | rightBandPreprocessed
deriving DecidableEq, Repr

/-- Base Tesseract configuration string of ocr_image. -/
def base_cfg : String := "--oem 1 --psm 6 -c preserve_interword_spaces=1"

/-- The five (image variant, engine configuration) attempts built by
ocr_image, in source order. -/
def attemptSpecs : List (ImgVariant × String) :=
  [(ImgVariant.original, base_cfg),
   (ImgVariant.preprocessed, base_cfg),
   (ImgVariant.preprocessed, "--oem 1 --psm 4 -c preserve_interword_spaces=1"),
   (ImgVariant.rightBandPreprocessed,
     base_cfg ++ " -c tessedit_char_whitelist=0123456789.,:-CHFfrSFRFr"),
   (ImgVariant.rightBandPreprocessed,
     "--oem 1 --psm 7 -c tessedit_char_whitelist=0123456789.,:-CHFfrSFRFr")]

/-- Black-box OCR engine for one image: each attempt either returns text or
raises. -/
structure OcrImageEnv where
  engine : ImgVariant × String → Except PyExn String

/-- One loop iteration body: the engine call is individually guarded, a
raise or a null result becoming empty text for that attempt only. -/
def attemptText (env : OcrImageEnv) (spec : ImgVariant × String) : String :=
  match env.engine spec with
  | Except.ok t => t
  | Except.error _ => ""

/-- One comparison of the attempt loop: replace the current best only by a
strictly longer text. -/
def bestStep (best txt : String) : String :=
  if decide (best.length < txt.length) then txt else best

/-- The best-text fold of the attempt loop, starting from the empty string. -/
def bestOf (texts : List String) : String :=
  texts.foldl bestStep ""

/-- Model of ocr_image: run every attempt, keep the longest text.  The
function also has an outer catch-all returning the empty string, so it
never raises. -/
def ocr_image (env : OcrImageEnv) : String :=
  bestOf (attemptSpecs.map (attemptText env))

/-- Declared file kind, from the path extension. -/
inductive FileKind where
  | image
  | pdf
  | unknown
deriving DecidableEq, Repr

/-- Environment of ocr_file: the declared kind, the image decoder (possibly
raising), the raw pdftotext subprocess call (possibly raising), and the PDF
rasterizer (possibly raising) giving one engine per page. -/
structure OcrFileEnv where
  kind : FileKind
  openImage : Except PyExn OcrImageEnv
  pdftotextRaw : Except PyExn String
  convertPages : Except PyExn (List OcrImageEnv)

/-- Model of _pdftotext: every failure of the subprocess call is caught and
becomes the empty string. -/
def pdftotextOf (env : OcrFileEnv) : String :=
  match env.pdftotextRaw with
  | Except.ok t => t
  | Except.error _ => ""

/-- Body of ocr_file before its outer try/except, with each inner
try/except in place: the embedded-text fast path for PDFs, rasterize-and-OCR
fallback, image path, and the unknown-kind image fallback. -/
def ocr_fileBody (env : OcrFileEnv) : Except PyExn String :=
  match env.kind with
  | FileKind.image =>
    match env.openImage with
    | Except.ok ienv => Except.ok (ocr_image ienv)
    | Except.error e => Except.error e
  | FileKind.pdf =>
    let txt := pdftotextOf env
    if decide (20 ≤ (pyStrip txt.toList).length) then Except.ok txt
    else
      match env.convertPages with
      | Except.error _ => Except.ok ""
      | Except.ok pages => Except.ok (String.intercalate "\n\n" (pages.map ocr_image))
  | FileKind.unknown =>
    match env.openImage with
    | Except.ok ienv => Except.ok (ocr_image ienv)
    | Except.error _ => Except.ok ""

/-- Model of ocr_file as the caller sees it: the outer try/except turns any
escaping exception into the empty string. -/
def ocr_file (env : OcrFileEnv) : String :=
  match ocr_fileBody env with
  | Except.ok s => s
  | Except.error _ => ""

/-- ocr_file with its exception behaviour kept visible: with the outer
catch in place the function always returns normally. -/
def ocr_fileE (env : OcrFileEnv) : Except PyExn String :=
  match ocr_fileBody env with
  | Except.ok s => Except.ok s
  | Except.error _ => Except.ok ""

/-!
Lemmas about the candidate sort, leading to claim C1.
-/

/-- Order on Tier-1 candidates: by start offset. -/
abbrev startLe (a b : Nat × ℚ) : Prop := a.1 ≤ b.1

theorem head?_mem_self {α : Type} {l : List α} {a : α} (h : l.head? = some a) : a ∈ l := by
  cases l with
  | nil => simp at h
  | cons x t =>
    have hx : x = a := by simpa using h
    rw [← hx]
    exact List.mem_cons_self _ _

theorem getLast?_mem_self {α : Type} {l : List α} {m : α} (h : l.getLast? = some m) :
    m ∈ l := by
  have h2 := List.mem_getLast?_eq_getLast (l := l) (x := m) (by simp [Option.mem_def, h])
  rcases h2 with ⟨hne, rfl⟩
  exact List.getLast_mem hne

theorem insByStart_perm (c : Nat × ℚ) (l : List (Nat × ℚ)) :
    List.Perm (insByStart c l) (c :: l) := by
  induction l with
  | nil => simp [insByStart]
  | cons d t ih =>
    by_cases h : c.1 < d.1
    · simp [insByStart, h]
    · have hb : decide (c.1 < d.1) = false := by simp [h]
      simp only [insByStart, hb, Bool.false_eq_true, if_false]
      exact (ih.cons d).trans (List.Perm.swap c d t)

theorem insByStart_sorted (c : Nat × ℚ) (l : List (Nat × ℚ))
    (h : List.Sorted startLe l) : List.Sorted startLe (insByStart c l) := by
  induction l with
  | nil => simp [insByStart]
  | cons d t ih =>
    rw [List.sorted_cons] at h
    by_cases hc : c.1 < d.1
    · have hb : decide (c.1 < d.1) = true := by simp [hc]
      simp only [insByStart, hb, if_true]
      rw [List.sorted_cons]
      refine ⟨fun b hb2 => ?_, by rw [List.sorted_cons]; exact h⟩
      rcases List.mem_cons.mp hb2 with rfl | hb3
      · exact Nat.le_of_lt hc
      · exact Nat.le_trans (Nat.le_of_lt hc) (h.1 b hb3)
    · have hb : decide (c.1 < d.1) = false := by simp [hc]
      simp only [insByStart, hb, Bool.false_eq_true, if_false]
      rw [List.sorted_cons]
      refine ⟨fun b hb2 => ?_, ih h.2⟩
      rcases List.mem_cons.mp ((insByStart_perm c t).mem_iff.mp hb2) with rfl | hb3
      · exact Nat.le_of_not_lt hc
      · exact h.1 b hb3

theorem sortByStart_perm (l : List (Nat × ℚ)) : List.Perm (sortByStart l) l := by
  have aux : ∀ (l acc : List (Nat × ℚ)),
      List.Perm (List.foldl (fun a c => insByStart c a) acc l) (acc ++ l) := by
    intro l
    induction l with
    | nil => intro acc; simp
    | cons x t ih =>
      intro acc
      have h1 := ih (insByStart x acc)
      have h2 : List.Perm (insByStart x acc ++ t) ((x :: acc) ++ t) :=
        (insByStart_perm x acc).append_right t
      have h3 : List.Perm ((x :: acc) ++ t) (acc ++ x :: t) := by
        simpa using
          (show List.Perm (acc ++ x :: t) (x :: (acc ++ t)) from List.perm_middle).symm
      exact (h1.trans h2).trans h3
  simpa using aux l []

theorem sortByStart_sorted (l : List (Nat × ℚ)) : List.Sorted startLe (sortByStart l) := by
  have aux : ∀ (l acc : List (Nat × ℚ)), List.Sorted startLe acc →
      List.Sorted startLe (List.foldl (fun a c => insByStart c a) acc l) := by
    intro l
    induction l with
    | nil => intro acc h; simpa using h
    | cons x t ih => intro acc h; exact ih _ (insByStart_sorted x acc h)
  exact aux l [] (by simp)

theorem sorted_le_getLast {l : List (Nat × ℚ)} (hs : List.Sorted startLe l)
    {x m : Nat × ℚ} (hx : x ∈ l) (hm : l.getLast? = some m) : x.1 ≤ m.1 := by
  induction l with
  | nil => simp at hx
  | cons d t ih =>
    rw [List.sorted_cons] at hs
    cases t with
    | nil =>
      simp only [List.getLast?_singleton, Option.some.injEq] at hm
      rcases List.mem_cons.mp hx with rfl | hx2
      · exact hm ▸ Nat.le_refl _
      · simp at hx2
    | cons e t2 =>
      rw [List.getLast?_cons_cons] at hm
      rcases List.mem_cons.mp hx with rfl | hx2
      · exact hs.1 m (getLast?_mem_self hm)
      · exact ih hs.2 hx2 hm

/-- Projection of the model parse onto its total component. -/
theorem parse_total_def (text : String) :
    (parse_store_and_total text).2.2 =
      (if (tier1Candidates text.toList).isEmpty then parse_total_by_lines text.toList
       else (sortByStart (tier1Candidates text.toList)).getLast?.map (fun c => c.2)) := rfl

/-- C1: for every input text, when Tier-1 total matching produces at least
one candidate, parse returns the value of the candidate whose match has the
largest starting character offset (c being such a candidate, with the value
at the largest offset well defined). -/
theorem tier1_last_offset_wins (text : String) (c : Nat × ℚ)
    (hmem : c ∈ tier1Candidates text.toList)
    (hmax : ∀ d ∈ tier1Candidates text.toList, d.1 ≤ c.1)
    (hval : ∀ d ∈ tier1Candidates text.toList, d.1 = c.1 → d.2 = c.2) :
    (parse_store_and_total text).2.2 = some c.2 := by
  have hne : tier1Candidates text.toList ≠ [] := List.ne_nil_of_mem hmem
  have hperm := sortByStart_perm (tier1Candidates text.toList)
  have hsne : sortByStart (tier1Candidates text.toList) ≠ [] := by
    intro h0
    rw [h0] at hperm
    exact hne hperm.nil_eq.symm
  obtain ⟨m, hm⟩ : ∃ m, (sortByStart (tier1Candidates text.toList)).getLast? = some m :=
    ⟨_, List.getLast?_eq_getLast_of_ne_nil hsne⟩
  have hmmem : m ∈ tier1Candidates text.toList := hperm.mem_iff.mp (getLast?_mem_self hm)
  have hcmem : c ∈ sortByStart (tier1Candidates text.toList) := hperm.mem_iff.mpr hmem
  have h1 : c.1 ≤ m.1 := sorted_le_getLast (sortByStart_sorted _) hcmem hm
  have h2 : m.2 = c.2 := hval m hmmem (Nat.le_antisymm (hmax m hmmem) h1)
  have hie : (tier1Candidates text.toList).isEmpty = false := by
    simpa [List.isEmpty_iff] using hne
  rw [parse_total_def, hie, if_neg (by simp), hm]
  exact congrArg some h2

/-- Witness for C1 on the offset example of the spec: the later offset wins. -/
theorem tier1_last_offset_wins_witness :
    (24, mkRat 3465 100) ∈
      tier1Candidates "Zwischensumme: 20.00 xx Total CHF 34.65".toList ∧
    (parse_store_and_total "Zwischensumme: 20.00 xx Total CHF 34.65").2.2 =
      some (mkRat 3465 100) :=
  ⟨by decide,
   tier1_last_offset_wins "Zwischensumme: 20.00 xx Total CHF 34.65" (24, mkRat 3465 100)
     (by decide) (by decide) (by decide)⟩

/-!
Lemmas about the best-text fold, leading to claims C4, C10, C5 and C7.
-/

theorem bestStep_cases (best txt : String) : bestStep best txt = txt ∨ bestStep best txt = best := by
  unfold bestStep
  by_cases h : best.length < txt.length <;> simp [h]

theorem le_length_bestStep_left (best txt : String) :
    best.length ≤ (bestStep best txt).length := by
  unfold bestStep
  by_cases h : best.length < txt.length <;> simp [h]
  exact Nat.le_of_lt h

theorem le_length_bestStep_right (best txt : String) :
    txt.length ≤ (bestStep best txt).length := by
  unfold bestStep
  by_cases h : best.length < txt.length <;> simp [h]
  exact Nat.le_of_not_lt h

theorem bestFold_acc_le (l : List String) : ∀ acc : String,
    acc.length ≤ (List.foldl bestStep acc l).length := by
  induction l with
  | nil => intro acc; simp
  | cons x t ih =>
    intro acc
    exact Nat.le_trans (le_length_bestStep_left acc x) (ih (bestStep acc x))

theorem bestFold_mem_le (l : List String) : ∀ (acc t : String), t ∈ l →
    t.length ≤ (List.foldl bestStep acc l).length := by
  induction l with
  | nil => intro acc t ht; simp at ht
  | cons x s ih =>
    intro acc t ht
    rcases List.mem_cons.mp ht with rfl | ht2
    · exact Nat.le_trans (le_length_bestStep_right acc t) (bestFold_acc_le s (bestStep acc t))
    · exact ih (bestStep acc x) t ht2

theorem bestFold_acc_or_mem (l : List String) : ∀ acc : String,
    List.foldl bestStep acc l = acc ∨ List.foldl bestStep acc l ∈ l := by
  induction l with
  | nil => intro acc; simp
  | cons x t ih =>
    intro acc
    rcases ih (bestStep acc x) with h | h
    · rcases bestStep_cases acc x with h2 | h2
      · right; rw [List.foldl_cons, h, h2]; exact List.mem_cons_self _ _
      · left; rw [List.foldl_cons, h, h2]
    · right; exact List.mem_cons_of_mem x h

theorem bestFold_keeps_acc (l : List String) : ∀ acc : String,
    (∀ t ∈ l, t.length ≤ acc.length) → List.foldl bestStep acc l = acc := by
  induction l with
  | nil => intro acc _; simp
  | cons x t ih =>
    intro acc h
    have hx : bestStep acc x = acc := by
      unfold bestStep
      rw [if_neg]
      simp only [decide_eq_true_eq]
      exact Nat.not_lt.mpr (h x (List.mem_cons_self _ _))
    rw [List.foldl_cons, hx]
    exact ih acc (fun s hs => h s (List.mem_cons_of_mem x hs))

theorem bestFold_first_max (l : List String) : ∀ (i : Nat) (acc : String),
    i < l.length →
    (∀ j, j < l.length → (l.getD j "").length ≤ (l.getD i "").length) →
    (∀ j, j < i → (l.getD j "").length < (l.getD i "").length) →
    acc.length < (l.getD i "").length →
    List.foldl bestStep acc l = l.getD i "" := by
  induction l with
  | nil => intro i acc hi; simp at hi
  | cons x t ih =>
    intro i acc hi hmax hfirst hacc
    cases i with
    | zero =>
      simp only [List.getD_cons_zero] at hmax hacc ⊢
      have hx : bestStep acc x = x := by
        unfold bestStep
        rw [if_pos]
        simpa using hacc
      rw [List.foldl_cons, hx]
      refine bestFold_keeps_acc t x (fun s hs => ?_)
      obtain ⟨j, hj, rfl⟩ := List.getElem_of_mem hs
      have := hmax (j + 1) (by simpa using Nat.succ_lt_succ hj)
      simpa [List.getD_cons_succ, List.getD, List.getElem?_eq_getElem hj] using this
    | succ k =>
      simp only [List.getD_cons_succ] at hmax hfirst hacc ⊢
      rw [List.foldl_cons]
      refine ih k (bestStep acc x) (Nat.lt_of_succ_lt_succ hi) ?_ ?_ ?_
      · intro j hj
        have := hmax (j + 1) (Nat.succ_lt_succ hj)
        simpa [List.getD_cons_succ] using this
      · intro j hj
        have := hfirst (j + 1) (Nat.succ_lt_succ hj)
        simpa [List.getD_cons_succ] using this
      · have hx : (x.length < (t.getD k "").length) := by
          have := hfirst 0 (Nat.succ_pos k)
          simpa [List.getD_cons_zero] using this
        rcases bestStep_cases acc x with h2 | h2 <;> rw [h2]
        · exact hx
        · exact hacc

/-- Default attempt for list indexing. -/
def dfltSpec : ImgVariant × String := (ImgVariant.original, "")

theorem attempt_map_getD (env : OcrImageEnv) (j : Nat) (hj : j < attemptSpecs.length) :
    (attemptSpecs.map (attemptText env)).getD j "" =
      attemptText env (attemptSpecs.getD j dfltSpec) := by
  have hj5 : j < 5 := by simpa [attemptSpecs] using hj
  interval_cases j <;> rfl

/-- C4: the OCR routine runs all five configured attempts unconditionally (a
failing attempt is just an empty text for that attempt, over an arbitrary
engine environment) and returns the longest text produced by any attempt,
the empty string when every attempt failed or produced empty text. -/
theorem ocr_image_runs_all_attempts (env : OcrImageEnv) :
    attemptSpecs.length = 5 ∧
    (∀ sp ∈ attemptSpecs, (attemptText env sp).length ≤ (ocr_image env).length) ∧
    (ocr_image env = "" ∨ ∃ sp ∈ attemptSpecs, ocr_image env = attemptText env sp) ∧
    ((∀ sp ∈ attemptSpecs, attemptText env sp = "") → ocr_image env = "") := by
  refine ⟨rfl, fun sp hsp => ?_, ?_, fun hall => ?_⟩
  · exact bestFold_mem_le _ "" _ (List.mem_map_of_mem (attemptText env) hsp)
  · rcases bestFold_acc_or_mem (attemptSpecs.map (attemptText env)) "" with h | h
    · exact Or.inl h
    · obtain ⟨sp, hsp, heq⟩ := List.mem_map.mp h
      exact Or.inr ⟨sp, hsp, heq.symm⟩
  · refine bestFold_keeps_acc _ "" (fun t ht => ?_)
    obtain ⟨sp, hsp, rfl⟩ := List.mem_map.mp ht
    simp [hall sp hsp]

/-- Witness for C4: a concrete environment where the second attempt raises
and the fourth attempt is the longest. -/
theorem ocr_image_runs_all_attempts_witness :
    (∀ sp ∈ attemptSpecs,
      (attemptText (OcrImageEnv.mk (fun sp =>
        if sp == attemptSpecs.getD 1 dfltSpec then Except.error PyExn.other
        else if sp == attemptSpecs.getD 3 dfltSpec then Except.ok "abcd"
        else Except.ok "x")) sp).length ≤
      (ocr_image (OcrImageEnv.mk (fun sp =>
        if sp == attemptSpecs.getD 1 dfltSpec then Except.error PyExn.other
        else if sp == attemptSpecs.getD 3 dfltSpec then Except.ok "abcd"
        else Except.ok "x")) ).length) ∧
    ocr_image (OcrImageEnv.mk (fun sp =>
        if sp == attemptSpecs.getD 1 dfltSpec then Except.error PyExn.other
        else if sp == attemptSpecs.getD 3 dfltSpec then Except.ok "abcd"
        else Except.ok "x")) = "abcd" :=
  ⟨(ocr_image_runs_all_attempts _).2.1, by decide⟩

/-- C10: when several attempts tie for the maximal text length, the earliest
attempt in the fixed order wins (a later attempt replaces the current best
only when strictly longer). -/
theorem ocr_image_tie_earliest (env : OcrImageEnv) (i : Nat)
    (hi : i < attemptSpecs.length)
    (hmax : ∀ j, j < attemptSpecs.length →
      (attemptText env (attemptSpecs.getD j dfltSpec)).length ≤
        (attemptText env (attemptSpecs.getD i dfltSpec)).length)
    (hfirst : ∀ j, j < i →
      (attemptText env (attemptSpecs.getD j dfltSpec)).length <
        (attemptText env (attemptSpecs.getD i dfltSpec)).length) :
    ocr_image env = attemptText env (attemptSpecs.getD i dfltSpec) := by
  by_cases h0 : 0 < (attemptText env (attemptSpecs.getD i dfltSpec)).length
  · unfold ocr_image bestOf
    rw [← attempt_map_getD env i hi]
    refine bestFold_first_max _ i "" (by simpa using hi) ?_ ?_ ?_
    · intro j hj
      have hj2 : j < attemptSpecs.length := by simpa using hj
      rw [attempt_map_getD env j hj2, attempt_map_getD env i hi]
      exact hmax j hj2
    · intro j hj
      have hj2 : j < attemptSpecs.length := Nat.lt_trans hj hi
      rw [attempt_map_getD env j hj2, attempt_map_getD env i hi]
      exact hfirst j hj
    · rw [attempt_map_getD env i hi]
      simpa using h0
  · have hlen : (attemptText env (attemptSpecs.getD i dfltSpec)).length = 0 :=
      Nat.eq_zero_of_not_pos h0
    have hempty : attemptText env (attemptSpecs.getD i dfltSpec) = "" := by
      cases he : attemptText env (attemptSpecs.getD i dfltSpec) with
      | mk data =>
        rw [he] at hlen
        simp [String.length] at hlen
        simp [hlen]
    rw [hempty]
    refine bestFold_keeps_acc _ "" (fun t ht => ?_)
    obtain ⟨sp, hsp, rfl⟩ := List.mem_map.mp ht
    obtain ⟨j, hj, rfl⟩ := List.getElem_of_mem hsp
    have hg : attemptSpecs[j] = attemptSpecs.getD j dfltSpec := by
      simp [List.getD, List.getElem?_eq_getElem hj]
    rw [hg]
    have := hmax j hj
    omega

/-- Witness for C10: attempts one and four tie at length one; the first
attempt's text is returned. -/
theorem ocr_image_tie_earliest_witness :
    ocr_image (OcrImageEnv.mk (fun sp =>
      if sp == attemptSpecs.getD 0 dfltSpec then Except.ok "a"
      else if sp == attemptSpecs.getD 3 dfltSpec then Except.ok "b"
      else Except.ok "")) = "a" :=
  ocr_image_tie_earliest _ 0 (by decide) (by decide) (by decide)

/-- C5: for every PDF whose embedded text layer trims to at least 20
characters, extraction returns exactly the untrimmed embedded-layer text,
and the result does not depend on the rasterization or OCR oracles. -/
theorem pdf_embedded_text_fast_path (env env2 : OcrFileEnv) (t : String)
    (hk : env.kind = FileKind.pdf) (hk2 : env2.kind = FileKind.pdf)
    (hp : env.pdftotextRaw = Except.ok t) (hp2 : env2.pdftotextRaw = Except.ok t)
    (hlen : 20 ≤ (pyStrip t.toList).length) :
    ocr_file env = t ∧ ocr_fileE env = Except.ok t ∧ ocr_file env2 = ocr_file env := by
  have hbody : ∀ e : OcrFileEnv, e.kind = FileKind.pdf → e.pdftotextRaw = Except.ok t →
      ocr_fileBody e = Except.ok t := by
    intro e hke hpe
    unfold ocr_fileBody
    rw [hke]
    have hpt : pdftotextOf e = t := by unfold pdftotextOf; rw [hpe]
    rw [hpt, if_pos (by simpa using hlen)]
  have h1 := hbody env hk hp
  have h2 := hbody env2 hk2 hp2
  unfold ocr_file ocr_fileE
  rw [h1, h2]
  exact ⟨rfl, rfl, rfl⟩

/-- Witness for C5: a 21-character embedded layer is returned untouched even
though rasterization would raise. -/
theorem pdf_embedded_text_fast_path_witness :
    ocr_file (OcrFileEnv.mk FileKind.pdf (Except.error PyExn.other)
      (Except.ok "ABCDEFGHIJKLMNOPQRSTU") (Except.error PyExn.other)) =
      "ABCDEFGHIJKLMNOPQRSTU" :=
  (pdf_embedded_text_fast_path _
    (OcrFileEnv.mk FileKind.pdf (Except.error PyExn.other)
      (Except.ok "ABCDEFGHIJKLMNOPQRSTU") (Except.error PyExn.other))
    "ABCDEFGHIJKLMNOPQRSTU" rfl rfl rfl rfl (by decide)).1

/-!
Exception-flow agreement lemmas and claims C6, C7, C8, C9.
-/

theorem normalizeE_eq (l : List Char) :
    normalize_amount_to_floatE l = Except.ok (normalize_amount_to_float l) := by
  unfold normalize_amount_to_floatE normalize_amount_to_float pyFloatE
  cases hb : l.isEmpty
  · simp only [Bool.false_eq_true, if_false]
    cases hp : pyFloat (normalizeSeparators l) <;> simp
  · simp

theorem rightmostE_eq (line : List Char) :
    rightmost_amount_in_lineE line = Except.ok (rightmost_amount_in_line line) := by
  unfold rightmost_amount_in_lineE rightmost_amount_in_line pyFloatE
  cases h : (findallAmount2 (nbspToSpace line)).getLast? with
  | none => simp
  | some raw => cases hp : pyFloat (commaToDot raw) <;> simp [hp]

theorem candAccumE_eq (text : List Char) (acc : List (Nat × ℚ))
    (r : Nat × Option (Nat × Nat)) :
    candAccumE text acc r = Except.ok (acc ++ (candOf text r).toList) := by
  obtain ⟨st, cap⟩ := r
  cases cap with
  | none => simp [candAccumE, candOf]
  | some sp =>
    simp only [candAccumE, candOf, normalizeE_eq]
    cases hn : normalize_amount_to_float (slice text sp.1 sp.2) <;> simp

theorem tier1_foldE (text : List Char) :
    ∀ (ms : List (Nat × Option (Nat × Nat))) (acc : List (Nat × ℚ)),
      ms.foldlM (candAccumE text) acc = Except.ok (acc ++ ms.filterMap (candOf text)) := by
  intro ms
  induction ms with
  | nil => intro acc; simp [List.foldlM, pure, Except.pure]
  | cons r rest ih =>
    intro acc
    rw [List.foldlM_cons, candAccumE_eq]
    show (rest.foldlM (candAccumE text) (acc ++ (candOf text r).toList)) = _
    rw [ih]
    cases hc : candOf text r <;> simp [List.filterMap_cons, hc]

theorem flatMap_filterMap_comm (text : List Char) (pats : List Re) :
    (pats.flatMap (finditer text)).filterMap (candOf text) =
      pats.flatMap (fun pat => (finditer text pat).filterMap (candOf text)) := by
  induction pats with
  | nil => simp
  | cons p ps ih => simp [List.flatMap_cons, List.filterMap_append, ih]

theorem tier1CandidatesE_eq (text : List Char) :
    tier1CandidatesE text = Except.ok (tier1Candidates text) := by
  unfold tier1CandidatesE tier1Candidates
  rw [tier1_foldE, List.nil_append, flatMap_filterMap_comm]

theorem linesGoE_eq (lines : List (List Char)) :
    parse_total_by_linesGoE lines = Except.ok (parse_total_by_linesGo lines) := by
  induction lines with
  | nil => simp [parse_total_by_linesGoE, parse_total_by_linesGo]
  | cons line rest ih =>
    unfold parse_total_by_linesGoE parse_total_by_linesGo
    cases hs : reSearch line keywordPat
    · simpa using ih
    · simp only [if_true]
      rw [rightmostE_eq]
      cases hr : rightmost_amount_in_line line <;> simp [ih]

theorem parseE_eq (text : String) :
    parse_store_and_totalE text = Except.ok (parse_store_and_total text) := by
  simp only [parse_store_and_totalE, parse_store_and_total, parse_total_by_lines]
  rw [tier1CandidatesE_eq]
  cases he : (tier1Candidates text.toList).isEmpty
  · have hne : tier1Candidates text.data ≠ [] := by simpa [List.isEmpty_iff] using he
    simp [hne]
  · have heq : tier1Candidates text.data = [] := by simpa [List.isEmpty_iff] using he
    simp [heq, linesGoE_eq]

/-- C6: the amount normalization maps the four spec examples to their exact
values, discards a non-number (two dots survive normalization), and a
failing parse yields no value rather than an error (the exception-explicit
form always returns normally, with the same result). -/
theorem normalize_round_trip_and_discard :
    normalize_amount_to_float ("1".toList ++ [apos] ++ "234.56".toList) =
      some (mkRat 123456 100) ∧
    normalize_amount_to_float "1 234,56".toList = some (mkRat 123456 100) ∧
    normalize_amount_to_float "34,65".toList = some (mkRat 3465 100) ∧
    normalize_amount_to_float "34.65".toList = some (mkRat 3465 100) ∧
    normalize_amount_to_float "1.234.56".toList = Option.none ∧
    (∀ s : List Char, normalize_amount_to_floatE s = Except.ok (normalize_amount_to_float s)) :=
  ⟨by decide, by decide, by decide, by decide, by decide, normalizeE_eq⟩

/-- C7: neither the extraction engine nor the parser raises to the caller:
over every oracle environment the exception-explicit models return normally
with the plain result, the empty input parses to all-absent fields, and an
environment in which the image decoder, the embedded-text extractor and the
rasterizer all raise extracts the empty string. -/
theorem extractor_and_parser_never_raise (env : OcrFileEnv) (text : String) :
    ocr_fileE env = Except.ok (ocr_file env) ∧
    parse_store_and_totalE text = Except.ok (parse_store_and_total text) ∧
    parse_store_and_total "" = (Option.none, Option.none, Option.none) ∧
    ((∃ e1, env.openImage = Except.error e1) →
     (∃ e2, env.pdftotextRaw = Except.error e2) →
     (∃ e3, env.convertPages = Except.error e3) →
     ocr_file env = "") := by
  refine ⟨?_, parseE_eq text, by decide, ?_⟩
  · unfold ocr_fileE ocr_file
    cases ocr_fileBody env <;> rfl
  · rintro ⟨e1, h1⟩ ⟨e2, h2⟩ ⟨e3, h3⟩
    unfold ocr_file ocr_fileBody
    cases hk : env.kind
    · rw [h1]
    · have hpt : pdftotextOf env = "" := by unfold pdftotextOf; rw [h2]
      rw [hpt, if_neg (by decide), h3]
    · rw [h1]

/-- Witness for C7: the all-raising PDF environment extracts empty text. -/
theorem extractor_and_parser_never_raise_witness :
    ocr_file (OcrFileEnv.mk FileKind.pdf (Except.error PyExn.other)
      (Except.error PyExn.other) (Except.error PyExn.other)) = "" :=
  (extractor_and_parser_never_raise
    (OcrFileEnv.mk FileKind.pdf (Except.error PyExn.other)
      (Except.error PyExn.other) (Except.error PyExn.other)) "x").2.2.2
    ⟨PyExn.other, rfl⟩ ⟨PyExn.other, rfl⟩ ⟨PyExn.other, rfl⟩

/-- Projection of the model parse onto the merchant display name. -/
theorem parse_store_def (text : String) :
    (parse_store_and_total text).1 =
      (findStore STORE_PATTERNS text.toList).map (fun e => e.1) := rfl

/-- Projection of the model parse onto the chain identifier. -/
theorem parse_chain_def (text : String) :
    (parse_store_and_total text).2.1 =
      (findStore STORE_PATTERNS text.toList).map (fun e => e.2) := rfl

/-- C9: merchant name and chain identifier are both present or both absent,
for every input text. -/
theorem merchant_chain_together (text : String) :
    ((parse_store_and_total text).1).isSome = ((parse_store_and_total text).2.1).isSome := by
  rw [parse_store_def, parse_chain_def]
  cases findStore STORE_PATTERNS text.toList <;> rfl

/-- Default merchant-table entry for list indexing. -/
def dfltStore : String × String × String := ("", "", "")

/-- C8: merchant identification returns the first entry of the ordered
keyword table whose keyword occurs case-insensitively (table order decides
ties), and both outputs are absent when no keyword occurs. -/
theorem merchant_table_order (text : String) :
    ((∀ e ∈ STORE_PATTERNS, searchCI text.toList e.1.toList = false) →
      (parse_store_and_total text).1 = Option.none ∧
      (parse_store_and_total text).2.1 = Option.none) ∧
    (∀ k, k < STORE_PATTERNS.length →
      searchCI text.toList (STORE_PATTERNS.getD k dfltStore).1.toList = true →
      (∀ j, j < k → searchCI text.toList (STORE_PATTERNS.getD j dfltStore).1.toList = false) →
      (parse_store_and_total text).1 = some (STORE_PATTERNS.getD k dfltStore).2.1 ∧
      (parse_store_and_total text).2.1 = some (STORE_PATTERNS.getD k dfltStore).2.2) := by
  constructor
  · intro h
    have h0 : searchCI text.data ['m', 'i', 'g', 'r', 'o', 's'] = false :=
      h ("migros", "Migros", "Migros") (by simp [STORE_PATTERNS])
    have h1 : searchCI text.data ['c', 'o', 'o', 'p'] = false :=
      h ("coop", "Coop", "Coop") (by simp [STORE_PATTERNS])
    have h2 : searchCI text.data ['a', 'l', 'd', 'i'] = false :=
      h ("aldi", "Aldi", "Aldi") (by simp [STORE_PATTERNS])
    have h3 : searchCI text.data ['l', 'i', 'd', 'l'] = false :=
      h ("lidl", "Lidl", "Lidl") (by simp [STORE_PATTERNS])
    rw [parse_store_def, parse_chain_def]
    simp [findStore, STORE_PATTERNS, h0, h1, h2, h3]
  · intro k hk hkt hj
    have hk4 : k < 4 := by simpa [STORE_PATTERNS] using hk
    rw [parse_store_def, parse_chain_def]
    interval_cases k
    · have ht : searchCI text.data ['m', 'i', 'g', 'r', 'o', 's'] = true := hkt
      simp [findStore, STORE_PATTERNS, ht]
    · have ht : searchCI text.data ['c', 'o', 'o', 'p'] = true := hkt
      have hj0 : searchCI text.data ['m', 'i', 'g', 'r', 'o', 's'] = false := hj 0 (by omega)
      simp [findStore, STORE_PATTERNS, ht, hj0]
    · have ht : searchCI text.data ['a', 'l', 'd', 'i'] = true := hkt
      have hj0 : searchCI text.data ['m', 'i', 'g', 'r', 'o', 's'] = false := hj 0 (by omega)
      have hj1 : searchCI text.data ['c', 'o', 'o', 'p'] = false := hj 1 (by omega)
      simp [findStore, STORE_PATTERNS, ht, hj0, hj1]
    · have ht : searchCI text.data ['l', 'i', 'd', 'l'] = true := hkt
      have hj0 : searchCI text.data ['m', 'i', 'g', 'r', 'o', 's'] = false := hj 0 (by omega)
      have hj1 : searchCI text.data ['c', 'o', 'o', 'p'] = false := hj 1 (by omega)
      have hj2 : searchCI text.data ['a', 'l', 'd', 'i'] = false := hj 2 (by omega)
      simp [findStore, STORE_PATTERNS, ht, hj0, hj1, hj2]

/-- Witness for C8: a text containing both a Lidl and a Coop keyword
resolves to Coop, the earlier table entry. -/
theorem merchant_table_order_witness :
    (parse_store_and_total "LIDL und Coop").1 = some "Coop" ∧
    (parse_store_and_total "LIDL und Coop").2.1 = some "Coop" :=
  (merchant_table_order "LIDL und Coop").2 1 (by decide) (by decide) (by decide)

/-!
Soundness of the matcher for character disciplines.  The 2-decimal amount
regex of Tier 2 only ever captures strings of digits with a single dot or
comma; this section proves that shape from the pattern syntax, which is
what lets Tier-2 extraction be compared with the Tier-1 normalization
rules (claims C2 and C3).
-/

theorem slice_zero_width (text : List Char) (a : Nat) : slice text a a = [] := by
  simp [slice]

theorem slice_single {text : List Char} {pos : Nat} {c : Char}
    (hg : text.get? pos = some c) : slice text pos (pos + 1) = [c] := by
  rcases List.get?_eq_some.mp hg with ⟨hlt, hv⟩
  unfold slice
  rw [Nat.add_sub_cancel_left, List.drop_eq_getElem_cons hlt]
  rw [List.take_succ_cons, List.take_zero]
  rw [show text[pos] = c from hv]

theorem slice_split (text : List Char) {a b c : Nat} (hab : a ≤ b) (hbc : b ≤ c) :
    slice text a c = slice text a b ++ slice text b c := by
  unfold slice
  rw [show c - a = (b - a) + (c - b) by omega, List.take_add, List.drop_drop,
    show a + (b - a) = b by omega]

/-- Character discipline of a pattern: every consumed character satisfies p,
at most k consumed characters fail q, at least m consumed characters
satisfy q.  Covers exactly the constructs of the Tier-2 amount regex (no
star, group handled separately). -/
inductive ClsSpec (p q : Char → Bool) : Re → Nat → Nat → Prop where
  | eps : ClsSpec p q Re.eps 0 0
  | bolO : ClsSpec p q Re.bol 0 0
  | eolO : ClsSpec p q Re.eol 0 0
  | wordBO : ClsSpec p q Re.wordB 0 0
  | clsQ (f : Char → Bool) (h : ∀ c, f c = true → p c = true ∧ q c = true) :
      ClsSpec p q (Re.cls f) 0 1
  | clsN (f : Char → Bool) (h : ∀ c, f c = true → p c = true) :
      ClsSpec p q (Re.cls f) 1 0
  | seqS {a b : Re} {ka kb ma mb : Nat} :
      ClsSpec p q a ka ma → ClsSpec p q b kb mb →
      ClsSpec p q (Re.seq a b) (ka + kb) (ma + mb)
  | altS {a b : Re} {k m : Nat} :
      ClsSpec p q a k m → ClsSpec p q b k m → ClsSpec p q (Re.alt a b) k m
  | mono {a : Re} {k k2 m m2 : Nat} :
      ClsSpec p q a k m → k ≤ k2 → m2 ≤ m → ClsSpec p q a k2 m2

theorem run_clsSpec {p q : Char → Bool} {re : Re} {k m : Nat}
    (hs : ClsSpec p q re k m) (text : List Char) :
    ∀ (pos : Nat) (r : MatchRes), r ∈ Re.run text re pos →
      pos ≤ r.1 ∧
      (slice text pos r.1).all p = true ∧
      ((slice text pos r.1).filter (fun c => !(q c))).length ≤ k ∧
      m ≤ ((slice text pos r.1).filter q).length := by
  induction hs with
  | eps =>
    intro pos r hr
    simp only [Re.run, List.mem_singleton] at hr
    subst hr
    simp [slice_zero_width]
  | bolO =>
    intro pos r hr
    simp only [Re.run] at hr
    split at hr <;> simp at hr
    subst hr
    simp [slice_zero_width]
  | eolO =>
    intro pos r hr
    simp only [Re.run] at hr
    split at hr <;> simp at hr
    subst hr
    simp [slice_zero_width]
  | wordBO =>
    intro pos r hr
    simp only [Re.run] at hr
    split at hr <;> simp at hr
    subst hr
    simp [slice_zero_width]
  | clsQ f h =>
    intro pos r hr
    simp only [Re.run] at hr
    cases hg : text.get? pos with
    | none => rw [hg] at hr; simp at hr
    | some c =>
      rw [hg] at hr
      cases hf : f c with
      | false => simp [hf] at hr
      | true =>
        simp only [hf, if_true, List.mem_singleton] at hr
        subst hr
        obtain ⟨hp, hq⟩ := h c hf
        simp [slice_single hg, hp, hq]
  | clsN f h =>
    intro pos r hr
    simp only [Re.run] at hr
    cases hg : text.get? pos with
    | none => rw [hg] at hr; simp at hr
    | some c =>
      rw [hg] at hr
      cases hf : f c with
      | false => simp [hf] at hr
      | true =>
        simp only [hf, if_true, List.mem_singleton] at hr
        subst hr
        have hp := h c hf
        constructor
        · exact Nat.le_succ pos
        · rw [slice_single hg]
          refine ⟨by simp [hp], ?_, by simp⟩
          cases hqc : q c <;> simp [hqc]
  | seqS hsa hsb iha ihb =>
    intro pos r hr
    simp only [Re.run] at hr
    rcases List.mem_flatMap.mp hr with ⟨r1, hr1, hr2⟩
    rcases List.mem_map.mp hr2 with ⟨r2, hr2m, hreq⟩
    obtain ⟨h1le, h1all, h1k, h1m⟩ := iha pos r1 hr1
    obtain ⟨h2le, h2all, h2k, h2m⟩ := ihb r1.1 r2 hr2m
    have hrfst : r.1 = r2.1 := by rw [← hreq]
    rw [hrfst]
    have hsplit := slice_split text h1le h2le
    refine ⟨Nat.le_trans h1le h2le, ?_, ?_, ?_⟩
    · rw [hsplit, List.all_append, h1all, h2all]; rfl
    · rw [hsplit, List.filter_append, List.length_append]
      exact Nat.add_le_add h1k h2k
    · rw [hsplit, List.filter_append, List.length_append]
      exact Nat.add_le_add h1m h2m
  | altS hsa hsb iha ihb =>
    intro pos r hr
    simp only [Re.run] at hr
    rcases List.mem_append.mp hr with h | h
    · exact iha pos r h
    · exact ihb pos r h
  | mono hsa hk hm iha =>
    intro pos r hr
    obtain ⟨h1, h2, h3, h4⟩ := iha pos r hr
    exact ⟨h1, h2, Nat.le_trans h3 hk, Nat.le_trans hm h4⟩

/-- A match of a top-level group records the whole match span as capture. -/
theorem run_group_mem {a : Re} {text : List Char} {pos : Nat} {r : MatchRes}
    (hr : r ∈ Re.run text (Re.group a) pos) :
    ∃ r0 ∈ Re.run text a pos, r = (r0.1, some (pos, r0.1)) := by
  simp only [Re.run] at hr
  rcases List.mem_map.mp hr with ⟨r0, hr0, hreq⟩
  exact ⟨r0, hr0, hreq.symm⟩

/-- Every element reported by the finditer scanner is the head match of the
pattern at its start position. -/
theorem finditerAux_mem {text : List Char} {pat : Re} :
    ∀ (fuel pos : Nat) (el : Nat × Option (Nat × Nat)), el ∈ finditerAux text pat fuel pos →
      ∃ r0, (Re.run text pat el.1).head? = some r0 ∧ el.2 = r0.2 := by
  intro fuel
  induction fuel with
  | zero => intro pos el h; simp [finditerAux] at h
  | succ f ih =>
    intro pos el h
    unfold finditerAux at h
    by_cases hlt : text.length < pos
    · rw [if_pos (by simpa using hlt)] at h; simp at h
    · rw [if_neg (by simpa using hlt)] at h
      cases hh : (Re.run text pat pos).head? with
      | none => rw [hh] at h; exact ih _ el h
      | some r0 =>
        rw [hh] at h
        rcases List.mem_cons.mp h with rfl | h2
        · exact ⟨r0, hh, rfl⟩
        · exact ih _ el h2

/-- Characters the Tier-2 amount regex can consume. -/
def amtChar (c : Char) : Bool := isDigitCh c || c == '.' || c == ','

theorem clsSpec_digit : ClsSpec amtChar isDigitCh digitRe 0 1 :=
  ClsSpec.clsQ isDigitCh (fun c hc => ⟨by simp [amtChar, hc], hc⟩)

theorem clsSpec_repExact_digit (n : Nat) :
    ClsSpec amtChar isDigitCh (Re.repExact digitRe n) 0 n := by
  induction n with
  | zero => exact ClsSpec.eps
  | succ j ih =>
    have h := ClsSpec.seqS (p := amtChar) (q := isDigitCh) clsSpec_digit ih
    simpa [Nat.add_comm] using h

theorem clsSpec_repUpTo_digit (n : Nat) :
    ClsSpec amtChar isDigitCh (Re.repUpTo digitRe n) 0 0 := by
  induction n with
  | zero => exact ClsSpec.eps
  | succ j ih =>
    refine ClsSpec.altS ?_ ClsSpec.eps
    exact ClsSpec.mono (ClsSpec.seqS clsSpec_digit ih) (by omega) (by omega)

theorem clsSpec_dotComma :
    ClsSpec amtChar isDigitCh (Re.cls (fun c => c == '.' || c == ',')) 1 0 :=
  ClsSpec.clsN _ (fun c hc => by
    cases hdot : (c == '.') <;> cases hcm : (c == ',') <;> simp_all [amtChar])

theorem clsSpec_decTail : ClsSpec amtChar isDigitCh decTail 1 2 := by
  have h := ClsSpec.seqS clsSpec_dotComma (clsSpec_repExact_digit 2)
  simpa using h

theorem clsSpec_amount2body :
    ClsSpec amtChar isDigitCh (Re.seq (Re.repRange digitRe 1 6) decTail) 1 3 := by
  have h1 : ClsSpec amtChar isDigitCh (Re.repRange digitRe 1 6) 0 1 := by
    have h := ClsSpec.seqS (clsSpec_repExact_digit 1) (clsSpec_repUpTo_digit 5)
    simpa using h
  have h := ClsSpec.seqS h1 clsSpec_decTail
  simpa using h

/-- Shape of every string captured by the Tier-2 amount regex: only digits,
dots and commas, at most one non-digit, at least three digits. -/
theorem findallAmount2_shape {line raw : List Char} (hmem : raw ∈ findallAmount2 line) :
    raw.all amtChar = true ∧
    (raw.filter (fun c => !(isDigitCh c))).length ≤ 1 ∧
    3 ≤ (raw.filter isDigitCh).length := by
  unfold findallAmount2 finditer at hmem
  rcases List.mem_filterMap.mp hmem with ⟨el, hel, hmap⟩
  rcases Option.map_eq_some'.mp hmap with ⟨sp, hsp, hslice⟩
  obtain ⟨r0, hh, hcap2⟩ := finditerAux_mem _ _ el hel
  have hr0mem : r0 ∈ Re.run line (Re.group (Re.seq (Re.repRange digitRe 1 6) decTail)) el.1 :=
    head?_mem_self hh
  obtain ⟨r1, hr1mem, req⟩ := run_group_mem hr0mem
  have hspv : sp = (el.1, r1.1) := by
    have h2 : el.2 = some (el.1, r1.1) := by rw [hcap2, req]
    rw [hsp] at h2
    exact (Option.some.injEq _ _).mp h2
  obtain ⟨_, hall, hk, hm⟩ := run_clsSpec clsSpec_amount2body line el.1 r1 hr1mem
  rw [← hslice, hspv]
  exact ⟨hall, hk, hm⟩

/-- A character the amount regex consumes is never Python whitespace. -/
theorem amt_not_space {c : Char} (h : amtChar c = true) : isPySpace c = false := by
  cases hx : isPySpace c
  · rfl
  · exfalso
    simp only [amtChar, isDigitCh, Bool.or_eq_true, Bool.and_eq_true, beq_iff_eq,
      decide_eq_true_eq] at h
    rcases h with (hd | hdot) | hcomma
    · simp only [isPySpace, Bool.or_eq_true, Bool.and_eq_true, beq_iff_eq,
        decide_eq_true_eq] at hx
      omega
    · rw [hdot] at hx
      exact absurd hx (by decide)
    · rw [hcomma] at hx
      exact absurd hx (by decide)

/-- A character the amount regex consumes survives the space-and-apostrophe
removal of the normalization. -/
theorem amt_keep_filter {c : Char} (h : amtChar c = true) :
    (!(c == ' ') && !(c == apos)) = true := by
  by_cases hs : c = ' '
  · rw [hs] at h; exact absurd h (by decide)
  · by_cases ha : c = apos
    · rw [ha] at h; exact absurd h (by decide)
    · simp [hs, ha]

theorem pyStrip_eq_self {l : List Char} (h : ∀ c ∈ l, isPySpace c = false) :
    pyStrip l = l := by
  have hdw : ∀ (l2 : List Char), (∀ c ∈ l2, isPySpace c = false) →
      l2.dropWhile isPySpace = l2 := by
    intro l2 h2
    cases l2 with
    | nil => rfl
    | cons c t => rw [List.dropWhile_cons, h2 c (List.mem_cons_self c t)]; simp
  unfold pyStrip
  rw [hdw l h, hdw l.reverse (fun c hc => h c (List.mem_reverse.mp hc)), List.reverse_reverse]

theorem commaToDot_eq_self {l : List Char} (h : (',' : Char) ∉ l) : commaToDot l = l := by
  unfold commaToDot
  rw [List.map_congr_left (fun a ha => ?_)]
  · exact List.map_id' l
  · have : ¬(a = ',') := fun he => h (he ▸ ha)
    simp [this]

theorem two_mem_le_length {α : Type} {l : List α} {a b : α}
    (ha : a ∈ l) (hb : b ∈ l) (hne : a ≠ b) : 2 ≤ l.length := by
  obtain ⟨s, t, rfl⟩ := List.append_of_mem ha
  rcases List.mem_append.mp hb with hbs | hbt
  · have := List.length_pos_of_mem hbs
    simp [List.length_append]
    omega
  · rcases List.mem_cons.mp hbt with rfl | hbt2
    · exact absurd rfl hne
    · have := List.length_pos_of_mem hbt2
      simp [List.length_append]
      omega

theorem filter_length_mono {l : List Char} {p q : Char → Bool}
    (h : ∀ c, p c = true → q c = true) :
    (l.filter p).length ≤ (l.filter q).length := by
  induction l with
  | nil => simp
  | cons c t ih =>
    rw [List.filter_cons, List.filter_cons]
    cases hp : p c
    · cases hq : q c <;> simp <;> omega
    · rw [h c hp]
      simpa using ih

/-- On every string the Tier-2 amount regex can capture, the comma-to-dot
rewrite followed by float parsing agrees with the full normalization
routine of Tier 1. -/
theorem normalize_eq_tier2_float {raw : List Char}
    (hall : raw.all amtChar = true)
    (hnd : (raw.filter (fun c => !(isDigitCh c))).length ≤ 1) :
    normalize_amount_to_float raw = pyFloat (commaToDot raw) := by
  cases hre : raw.isEmpty
  case true =>
    have heq : raw = [] := by simpa [List.isEmpty_iff] using hre
    rw [heq]
    decide
  case false =>
    have hmem : ∀ c ∈ raw, amtChar c = true := List.all_eq_true.mp hall
    have hstrip : stripSpacesApos raw = raw := by
      unfold stripSpacesApos
      rw [pyStrip_eq_self (fun c hc => amt_not_space (hmem c hc))]
      exact List.filter_eq_self.mpr (fun c hc => amt_keep_filter (hmem c hc))
    have hnotboth : ¬(raw.contains '.' = true ∧ raw.contains ',' = true) := by
      rintro ⟨hdot, hcomma⟩
      have hdm : ('.' : Char) ∈ raw := List.elem_iff.mp hdot
      have hcm : (',' : Char) ∈ raw := List.elem_iff.mp hcomma
      have hdm2 : ('.' : Char) ∈ raw.filter (fun c => !(isDigitCh c)) :=
        List.mem_filter.mpr ⟨hdm, by decide⟩
      have hcm2 : (',' : Char) ∈ raw.filter (fun c => !(isDigitCh c)) :=
        List.mem_filter.mpr ⟨hcm, by decide⟩
      have := two_mem_le_length hdm2 hcm2 (by decide)
      omega
    unfold normalize_amount_to_float normalizeSeparators
    rw [hre]
    simp only [Bool.false_eq_true, if_false]
    rw [hstrip]
    by_cases hcomma : raw.contains ',' = true
    · have hdot : raw.contains '.' = false := by
        cases hd : raw.contains '.'
        · rfl
        · exact absurd ⟨hd, hcomma⟩ hnotboth
      have hcond : (raw.contains '.' && raw.contains ',') = false := by
        rw [hdot, Bool.false_and]
      rw [if_neg (by rw [hcond]; simp), if_pos hcomma]
    · have hc2 : raw.contains ',' = false := by
        cases hc : raw.contains ','
        · rfl
        · exact absurd hc hcomma
      have hcond : (raw.contains '.' && raw.contains ',') = false := by
        rw [hc2, Bool.and_false]
      rw [if_neg (by rw [hcond]; simp), if_neg (by rw [hc2]; simp)]
      rw [commaToDot_eq_self (fun hm => by
        have h3 := List.elem_iff.mpr hm
        have hc3 : List.elem ',' raw = false := hc2
        rw [hc3] at h3
        exact Bool.false_ne_true h3)]

/-- On every string the Tier-2 amount regex can capture, float parsing
after the comma-to-dot rewrite succeeds. -/
theorem pyFloat_commaToDot_some {raw : List Char}
    (hall : raw.all amtChar = true)
    (hnd : (raw.filter (fun c => !(isDigitCh c))).length ≤ 1)
    (hmin : 3 ≤ (raw.filter isDigitCh).length) :
    ∃ v, pyFloat (commaToDot raw) = some v := by
  have hmem : ∀ c ∈ raw, amtChar c = true := List.all_eq_true.mp hall
  have hnc : ∀ c : Char, isDigitCh c = true → (c == ',') = false := by
    intro c hd
    cases hq : (c == ',')
    · rfl
    · have hcc : c = ',' := by simpa using hq
      rw [hcc] at hd
      exact absurd hd (by decide)
  have hA : (commaToDot raw).all (fun c => isDigitCh c || c == '.') = true := by
    rw [List.all_eq_true]
    intro c hc
    rcases List.mem_map.mp hc with ⟨c0, hc0, rfl⟩
    have h0 := hmem c0 hc0
    simp only [amtChar, Bool.or_eq_true, beq_iff_eq] at h0
    rcases h0 with (hd | rfl) | rfl
    · simp [hnc c0 hd, hd]
    · simp
    · simp
  have hB : ((commaToDot raw).filter (fun c => c == '.')).length ≤ 1 := by
    unfold commaToDot
    rw [List.filter_map, List.length_map]
    refine Nat.le_trans (filter_length_mono (fun c hc => ?_)) hnd
    simp only [Function.comp_apply] at hc
    cases hd : isDigitCh c
    · simp
    · exfalso
      rw [hnc c hd] at hc
      simp only [Bool.false_eq_true, if_false] at hc
      have hcc : c = '.' := by simpa using hc
      rw [hcc] at hd
      exact absurd hd (by decide)
  have hC : 1 ≤ ((commaToDot raw).filter isDigitCh).length := by
    unfold commaToDot
    rw [List.filter_map, List.length_map]
    have hmono := filter_length_mono (l := raw) (p := isDigitCh)
      (q := isDigitCh ∘ fun c => if c == ',' then '.' else c) (fun c hc => by
        simp only [Function.comp_apply]
        rw [hnc c hc]
        simpa using hc)
    omega
  have hcond : ((commaToDot raw).all (fun c => isDigitCh c || c == '.') &&
      decide (((commaToDot raw).filter (fun c => c == '.')).length ≤ 1) &&
      decide (1 ≤ ((commaToDot raw).filter isDigitCh).length)) = true := by
    rw [hA, Bool.true_and]
    simp only [Bool.and_eq_true, decide_eq_true_eq]
    exact ⟨hB, hC⟩
  unfold pyFloat
  rw [if_pos hcond]
  exact ⟨_, rfl⟩

/-- Tier 2 returns, on every line, exactly the Tier-1 normalization of its
captured right-most amount string. -/
theorem rightmost_eq_normalize (line : List Char) :
    rightmost_amount_in_line line =
      ((findallAmount2 (nbspToSpace line)).getLast?).bind normalize_amount_to_float := by
  unfold rightmost_amount_in_line
  cases hl : (findallAmount2 (nbspToSpace line)).getLast? with
  | none => rfl
  | some raw =>
    have hmem := getLast?_mem_self hl
    obtain ⟨hall, hnd, _⟩ := findallAmount2_shape hmem
    rw [Option.some_bind]
    exact (normalize_eq_tier2_float hall hnd).symm

/-- The Tier-2 helper yields a value exactly when the line holds a
2-decimal numeric substring. -/
theorem rightmost_some_iff (line : List Char) :
    (rightmost_amount_in_line line).isSome =
      !(findallAmount2 (nbspToSpace line)).isEmpty := by
  cases hl : (findallAmount2 (nbspToSpace line)).getLast? with
  | none =>
    have hnil : findallAmount2 (nbspToSpace line) = [] := List.getLast?_eq_none_iff.mp hl
    unfold rightmost_amount_in_line
    rw [hl, hnil]
    rfl
  | some raw =>
    have hmem := getLast?_mem_self hl
    obtain ⟨hall, hnd, hmin⟩ := findallAmount2_shape hmem
    obtain ⟨v, hv⟩ := pyFloat_commaToDot_some hall hnd hmin
    have hval : rightmost_amount_in_line line = pyFloat (commaToDot raw) := by
      unfold rightmost_amount_in_line
      rw [hl]
    rw [hval, hv]
    have hne : findallAmount2 (nbspToSpace line) ≠ [] := List.ne_nil_of_mem hmem
    simp [List.isEmpty_iff, hne]

/-- Qualifying line of the Tier-2 fallback: it holds one of the standalone
keywords and at least one 2-decimal numeric substring. -/
def lineQualifies (line : List Char) : Bool :=
  reSearch line keywordPat && !(findallAmount2 (nbspToSpace line)).isEmpty

theorem linesGo_eq_find (lines : List (List Char)) :
    parse_total_by_linesGo lines =
      (lines.find? lineQualifies).bind rightmost_amount_in_line := by
  induction lines with
  | nil => rfl
  | cons line rest ih =>
    unfold parse_total_by_linesGo
    cases hs : reSearch line keywordPat
    · have hq : lineQualifies line = false := by simp [lineQualifies, hs]
      rw [List.find?_cons_of_neg _ (by simp [hq])]
      simpa using ih
    · cases hr : rightmost_amount_in_line line with
      | some v =>
        have hq : lineQualifies line = true := by
          have h2 := rightmost_some_iff line
          rw [hr] at h2
          simp [lineQualifies, hs, ← h2]
        rw [List.find?_cons_of_pos _ hq, Option.some_bind, hr]
        simp
      | none =>
        have hq : lineQualifies line = false := by
          have h2 := rightmost_some_iff line
          rw [hr] at h2
          simp [lineQualifies, hs, ← h2]
        rw [List.find?_cons_of_neg _ (by simp [hq])]
        simpa using ih

/-- C2: the amount-normalization rules are applied to every captured raw
amount string in both tiers: each Tier-1 candidate value is the
normalization of the string captured by its match, and the Tier-2 result on
any line is the normalization of the captured right-most amount string. -/
theorem amount_normalization_both_tiers :
    (∀ (text : List Char) (c : Nat × ℚ), c ∈ tier1Candidates text →
      ∃ pat ∈ TOTAL_PATTERNS, ∃ r ∈ finditer text pat, ∃ sp : Nat × Nat,
        r.2 = some sp ∧ r.1 = c.1 ∧
        normalize_amount_to_float (slice text sp.1 sp.2) = some c.2) ∧
    (∀ line : List Char,
      rightmost_amount_in_line line =
        ((findallAmount2 (nbspToSpace line)).getLast?).bind normalize_amount_to_float) := by
  constructor
  · intro text c hc
    unfold tier1Candidates at hc
    rcases List.mem_flatMap.mp hc with ⟨pat, hpat, hc2⟩
    rcases List.mem_filterMap.mp hc2 with ⟨r, hr, hcand⟩
    refine ⟨pat, hpat, r, hr, ?_⟩
    unfold candOf at hcand
    cases hcap : r.2 with
    | none => rw [hcap] at hcand; simp at hcand
    | some sp =>
      rw [hcap] at hcand
      rcases Option.map_eq_some'.mp hcand with ⟨v, hv, hpair⟩
      refine ⟨sp, rfl, ?_, ?_⟩
      · rw [← hpair]
      · rw [← hpair]; exact hv
  · exact rightmost_eq_normalize

/-- Witness for C2: one Tier-1 candidate whose value is the normalization
of its captured grouped-thousands amount string. -/
theorem amount_normalization_both_tiers_witness :
    (0, mkRat 123456 100) ∈
      tier1Candidates ("Total 1".toList ++ [apos] ++ "234.56".toList) ∧
    (∃ pat ∈ TOTAL_PATTERNS,
      ∃ r ∈ finditer ("Total 1".toList ++ [apos] ++ "234.56".toList) pat,
      ∃ sp : Nat × Nat, r.2 = some sp ∧ r.1 = 0 ∧
        normalize_amount_to_float
          (slice ("Total 1".toList ++ [apos] ++ "234.56".toList) sp.1 sp.2) =
          some (mkRat 123456 100)) :=
  ⟨by decide,
   amount_normalization_both_tiers.1 ("Total 1".toList ++ [apos] ++ "234.56".toList)
     (0, mkRat 123456 100) (by decide)⟩

/-- C3: when Tier 1 yields no candidates, parse returns the right-most
2-decimal number of the first line holding a standalone keyword and such a
number, and the total is absent when no line qualifies; on every qualifying
line the extracted value exists. -/
theorem tier2_line_fallback (text : String)
    (hno : tier1Candidates text.toList = []) :
    ((parse_store_and_total text).2.2 =
      ((splitPyLines text.toList).find? lineQualifies).bind rightmost_amount_in_line) ∧
    (∀ line ∈ splitPyLines text.toList, lineQualifies line = true →
      ∃ v, rightmost_amount_in_line line = some v) := by
  constructor
  · have hno2 : tier1Candidates text.data = [] := hno
    rw [parse_total_def, if_pos (by simp [hno2])]
    unfold parse_total_by_lines
    exact linesGo_eq_find _
  · intro line _ hq
    have hq2 : (reSearch line keywordPat &&
        !(findallAmount2 (nbspToSpace line)).isEmpty) = true := hq
    have h2 : (!(findallAmount2 (nbspToSpace line)).isEmpty) = true :=
      ((Bool.and_eq_true _ _).mp hq2).2
    have h3 := rightmost_some_iff line
    rw [h2] at h3
    exact Option.isSome_iff_exists.mp h3

/-- Witness for C3: a label separated from the amount by a non-matching
character defeats every Tier-1 pattern but qualifies for the line scan. -/
theorem tier2_line_fallback_witness :
    tier1Candidates "TOTAL x 12.34".toList = [] ∧
    (parse_store_and_total "TOTAL x 12.34").2.2 =
      ((splitPyLines "TOTAL x 12.34".toList).find? lineQualifies).bind
        rightmost_amount_in_line ∧
    (parse_store_and_total "TOTAL x 12.34").2.2 = some (mkRat 1234 100) :=
  ⟨by decide, (tier2_line_fallback "TOTAL x 12.34" (by decide)).1, by decide⟩

end OCRBelege
